import Mathlib

/-!
Verification of the grounding policy engine, the monthly usage accountant and
the tool-call orchestration loop of the gramps-web-api LLM subsystem.

The definitions below are shallow embeddings of the Python source files
gramps_webapi/api/llm/grounding_policy.py, gramps_webapi/api/llm/grounding_usage.py
and gramps_webapi/api/llm/agent.py.  Pure Python functions become Lean
functions; the SQLAlchemy session becomes explicit state passing over a map
from billing periods to rows; the Gemini client and the tool dispatcher become
oracle parameters, and Python exceptions become Except values.
-/

namespace GrampsWeb

/-! ## Grounding policy (grounding_policy.py) -/

/-- List pat is a contiguous infix of list hay. -/
def listInfix (pat hay : List Char) : Bool :=
  match hay with
  | [] => pat.isEmpty
  | c :: t => pat.isPrefixOf (c :: t) || listInfix pat t

/-- Python membership test: pat appears as a contiguous substring of hay. -/
def strContains (hay pat : String) : Bool :=
  listInfix pat.data hay.data

/-- ASCII lower-casing of one character, as Python str.lower acts on ASCII. -/
def lowerChar (c : Char) : Char :=
  if 'A' ≤ c ∧ c ≤ 'Z' then Char.ofNat (c.toNat + 32) else c

/-- Python str.lower over the characters of the string (ASCII fragment). -/
def pyLower (s : String) : String :=
  ⟨s.data.map lowerChar⟩

/-- Whitespace stripped by Python str.strip (ASCII fragment). -/
def isPyWhitespace (c : Char) : Bool :=
  c = ' ' || c = '\t' || c = '\n' || c = '\r' || c = '\x0b' || c = '\x0c'

/-- Python str.strip: drop leading and trailing whitespace. -/
def pyStrip (s : String) : String :=
  ⟨((s.data.dropWhile isPyWhitespace).reverse.dropWhile isPyWhitespace).reverse⟩

def VALID_SEARCH_GROUNDING_MODES : List String := ["off", "auto", "on"]

def OUT_OF_SCOPE_REFUSAL_MESSAGE : String :=
  "I can only help with genealogy and family-history questions. " ++
  "If you connect your question to a person, place, time period, or event in your tree, " ++
  "I can help with that."

def GENEALOGY_SCOPE_KEYWORDS : List String :=
  ["genealogy", "family tree", "ancestor", "ancestors", "descendant",
   "descendants", "lineage", "surname", "birth", "death", "marriage",
   "spouse", "parents", "parent", "children", "child", "sibling",
   "grandfather", "grandmother", "grandparent", "census", "immigration",
   "emigration", "migration", "parish", "record", "obituary", "grave",
   "cemetery", "occupation", "tree"]

def CONTEXT_GAP_KEYWORDS : List String :=
  ["historical context", "context", "what was life like", "why did",
   "why was", "because", "migration pattern", "migration patterns",
   "moved from", "moved to", "war", "famine", "plague", "epidemic",
   "economic", "industry", "occupation history", "place name change",
   "border change", "history of"]

def HIGH_CONFIDENCE_CONTEXT_GAP_KEYWORDS : List String :=
  ["historical context", "what was life like", "why did",
   "migration pattern", "migration patterns", "moved from", "moved to",
   "place name change", "border change"]

def OUT_OF_SCOPE_HINTS : List String :=
  ["movie", "film", "reviews", "box office", "sports", "nfl", "nba",
   "mlb", "nhl", "weather", "forecast", "stock", "crypto", "bitcoin",
   "recipe", "restaurant", "game", "video game", "programming", "code bug"]

def isUpperAZ (c : Char) : Bool := 'A' ≤ c && c ≤ 'Z'

def isLowerAZ (c : Char) : Bool := 'a' ≤ c && c ≤ 'z'

/-- Word character for the regex word boundary: letters, digits, underscore. -/
def isWordChar (c : Char) : Bool := c.isAlphanum || c = '_'

/-- Consume the maximal run of ASCII lowercase letters, returning its length
and the rest of the input. -/
def takeLowerRun : List Char → Nat × List Char
  | [] => (0, [])
  | c :: cs =>
    if isLowerAZ c then
      let r := takeLowerRun cs
      (r.1 + 1, r.2)
    else (0, c :: cs)

/-- Word boundary at the end of a match: end of input or a non-word char. -/
def boundaryAfter : List Char → Bool
  | [] => true
  | c :: _ => !(isWordChar c)

/-- Try to match the body of the pattern U L+ space U L+ with a trailing word
boundary, starting exactly at the head of the input.  The lowercase runs are
taken maximally, which is equivalent to backtracking here because the
character after a shorter run would be a lowercase (word) character. -/
def matchNameAt : List Char → Bool
  | [] => false
  | c1 :: cs =>
    if isUpperAZ c1 then
      match takeLowerRun cs with
      | (n1, rest1) =>
        match rest1 with
        | ' ' :: cs2 =>
          decide (1 ≤ n1) &&
          (match cs2 with
           | c2 :: cs3 =>
             isUpperAZ c2 &&
             (match takeLowerRun cs3 with
              | (n2, rest2) => decide (1 ≤ n2) && boundaryAfter rest2)
           | [] => false)
        | _ => false
    else false

/-- Scan every start position, tracking the previous character so the leading
word boundary of the pattern can be checked. -/
def scanPersonName : Option Char → List Char → Bool
  | _, [] => false
  | prev, c :: cs =>
    ((match prev with
      | none => true
      | some p => !(isWordChar p)) && matchNameAt (c :: cs))
    || scanPersonName (some c) cs

/-- Embedding of _looks_like_person_name: re.search of the pattern
two capitalized words separated by a space, with word boundaries. -/
def _looks_like_person_name (query : String) : Bool :=
  scanPersonName none query.data

/-- Embedding of _is_in_genealogy_scope. -/
def _is_in_genealogy_scope (query : String) : Bool :=
  let normalized := pyStrip (pyLower query)
  if normalized = "" then true
  else
    let has_genealogy_keyword :=
      GENEALOGY_SCOPE_KEYWORDS.any (fun w => strContains normalized w)
    let has_out_of_scope_hint :=
      OUT_OF_SCOPE_HINTS.any (fun w => strContains normalized w)
    let has_person_name := _looks_like_person_name query
    if has_out_of_scope_hint && !has_genealogy_keyword && !has_person_name then
      false
    else true

/-- Embedding of _is_context_gap_query. -/
def _is_context_gap_query (query : String) : Bool :=
  let normalized := pyStrip (pyLower query)
  if normalized = "" then false
  else CONTEXT_GAP_KEYWORDS.any (fun w => strContains normalized w)

/-- Embedding of _is_high_confidence_context_gap_query. -/
def _is_high_confidence_context_gap_query (query : String) : Bool :=
  let normalized := pyStrip (pyLower query)
  if normalized = "" then false
  else HIGH_CONFIDENCE_CONTEXT_GAP_KEYWORDS.any (fun w => strContains normalized w)

/-- Embedding of _normalize_limit.  The Python argument is Any; an absent or
unparseable value is modeled as none, a parseable one as some int. -/
def _normalize_limit (value : Option Int) : Option Int :=
  match value with
  | none => none
  | some v => if v ≤ 0 then none else some v

/-- Embedding of normalize_search_grounding_mode.  The raw mode is modeled as
a string; the Python "raw_mode or auto" replaces a falsy (empty) value. -/
def normalize_search_grounding_mode (raw_mode : String) : String :=
  let mode := pyLower (pyStrip (if raw_mode = "" then "auto" else raw_mode))
  if VALID_SEARCH_GROUNDING_MODES.contains mode then mode else "auto"

/-- Python test: limit is not None and count >= limit. -/
def capReached (limit : Option Int) (count : Int) : Bool :=
  match limit with
  | none => false
  | some l => l ≤ count

structure GroundingDecision where
  mode : String
  grounding_attached : Bool
  decision_reason : String
  should_refuse : Bool
  refusal_message : Option String
deriving DecidableEq, Repr

/-- Embedding of decide_chat_grounding. -/
def decide_chat_grounding (raw_mode : String) (query : String)
    (current_grounded_prompts_count : Int := 0)
    (free_tier_limit : Option Int := none)
    (soft_cap : Option Int := none)
    (hard_cap : Option Int := none) : GroundingDecision :=
  let mode := normalize_search_grounding_mode raw_mode
  let in_scope := _is_in_genealogy_scope query
  if !in_scope then
    { mode := mode, grounding_attached := false, decision_reason := "scope_out",
      should_refuse := true, refusal_message := some OUT_OF_SCOPE_REFUSAL_MESSAGE }
  else if mode = "off" then
    { mode := mode, grounding_attached := false, decision_reason := "mode_off",
      should_refuse := false, refusal_message := none }
  else if mode = "on" then
    { mode := mode, grounding_attached := true, decision_reason := "mode_on",
      should_refuse := false, refusal_message := none }
  else
    let free_limit := _normalize_limit free_tier_limit
    if capReached free_limit current_grounded_prompts_count then
      { mode := mode, grounding_attached := false,
        decision_reason := "cap_blocked_free_tier",
        should_refuse := false, refusal_message := none }
    else
      let hard_limit := _normalize_limit hard_cap
      if capReached hard_limit current_grounded_prompts_count then
        { mode := mode, grounding_attached := false,
          decision_reason := "cap_blocked_hard",
          should_refuse := false, refusal_message := none }
      else
        let soft_limit := _normalize_limit soft_cap
        let in_soft_tightening := capReached soft_limit current_grounded_prompts_count
        if _is_context_gap_query query then
          if in_soft_tightening && !(_is_high_confidence_context_gap_query query) then
            { mode := mode, grounding_attached := false,
              decision_reason := "soft_cap_tightened",
              should_refuse := false, refusal_message := none }
          else if in_soft_tightening then
            { mode := mode, grounding_attached := true,
              decision_reason := "context_gap_soft_cap",
              should_refuse := false, refusal_message := none }
          else
            { mode := mode, grounding_attached := true,
              decision_reason := "context_gap",
              should_refuse := false, refusal_message := none }
        else
          { mode := mode, grounding_attached := false,
            decision_reason := "tree_sufficient",
            should_refuse := false, refusal_message := none }

/-! ## Theorems about the grounding policy -/

/-- C9: for every combination of raw_mode, query string, count and cap
arguments, the decision returned by decide_chat_grounding satisfies the
invariant that should_refuse = true implies grounding_attached = false. -/
theorem C9_refuse_implies_not_attached (raw_mode query : String)
    (count : Int) (free soft hard : Option Int)
    (h : (decide_chat_grounding raw_mode query count free soft hard).should_refuse = true) :
    (decide_chat_grounding raw_mode query count free soft hard).grounding_attached = false := by
  unfold decide_chat_grounding at *
  repeat' split at h <;> simp_all

/-- C9 witness: a concrete out-of-scope query is refused and not attached. -/
theorem C9_refuse_implies_not_attached_witness :
    (decide_chat_grounding "auto" "best movie reviews" 0 none none none).should_refuse = true ∧
    (decide_chat_grounding "auto" "best movie reviews" 0 none none none).grounding_attached = false :=
  ⟨by decide,
   C9_refuse_implies_not_attached "auto" "best movie reviews" 0 none none none (by decide)⟩

/-- C2: evaluation of the code at the claimed input.  The query
"Did Predator Badlands get good movie reviews?" matches the two-word
capitalized person-name regex (on the words Predator Badlands), so
_is_in_genealogy_scope returns true and the decision is tree_sufficient with
no refusal, contradicting the claimed scope_out refusal (and the repository
test test_scope_out_refusal, which asserts scope_out on this very input). -/
theorem C2_predator_badlands_is_tree_sufficient :
    _looks_like_person_name "Did Predator Badlands get good movie reviews?" = true ∧
    decide_chat_grounding "auto" "Did Predator Badlands get good movie reviews?" 0 none none none =
      { mode := "auto", grounding_attached := false,
        decision_reason := "tree_sufficient", should_refuse := false,
        refusal_message := none } :=
  ⟨by decide, by decide⟩

/-- C6: threshold crossing table.  With free_tier_limit 100000, soft_cap 4000,
hard_cap 5000, mode auto and an in-scope high-confidence context-gap query:
count 3999 gives context_gap attached, every count in 4000..4999 gives
context_gap_soft_cap attached, and counts 5000 and 5001 give
cap_blocked_hard not attached. -/
theorem C6_threshold_crossing_table (q : String)
    (hscope : _is_in_genealogy_scope q = true)
    (hgap : _is_context_gap_query q = true)
    (hhigh : _is_high_confidence_context_gap_query q = true) :
    ((decide_chat_grounding "auto" q 3999 (some 100000) (some 4000) (some 5000)).decision_reason
        = "context_gap" ∧
     (decide_chat_grounding "auto" q 3999 (some 100000) (some 4000) (some 5000)).grounding_attached
        = true) ∧
    (∀ c : Int, 4000 ≤ c → c ≤ 4999 →
      (decide_chat_grounding "auto" q c (some 100000) (some 4000) (some 5000)).decision_reason
        = "context_gap_soft_cap" ∧
      (decide_chat_grounding "auto" q c (some 100000) (some 4000) (some 5000)).grounding_attached
        = true) ∧
    (∀ c : Int, c = 5000 ∨ c = 5001 →
      (decide_chat_grounding "auto" q c (some 100000) (some 4000) (some 5000)).decision_reason
        = "cap_blocked_hard" ∧
      (decide_chat_grounding "auto" q c (some 100000) (some 4000) (some 5000)).grounding_attached
        = false) := by
  refine ⟨?_, ?_, ?_⟩
  · constructor <;>
      (simp only [decide_chat_grounding]; rw [hscope, hgap, hhigh]; decide)
  · intro c hc1 hc2
    have hfree : capReached (_normalize_limit (some 100000)) c = false := by
      simp [capReached, _normalize_limit]; omega
    have hhard : capReached (_normalize_limit (some 5000)) c = false := by
      simp [capReached, _normalize_limit]; omega
    have hsoft : capReached (_normalize_limit (some 4000)) c = true := by
      simp [capReached, _normalize_limit]; omega
    constructor <;>
      (simp only [decide_chat_grounding];
       rw [hscope, hgap, hhigh, hfree, hhard, hsoft]; decide)
  · intro c hc
    have hmode : normalize_search_grounding_mode "auto" = "auto" := by decide
    have hfree : capReached (_normalize_limit (some 100000)) c = false := by
      simp [capReached, _normalize_limit]; omega
    have hhard : capReached (_normalize_limit (some 5000)) c = true := by
      simp [capReached, _normalize_limit]; omega
    constructor <;>
      (simp only [decide_chat_grounding];
       rw [hscope, hfree, hhard, hmode]; simp)

/-- C6 witness: the table evaluated at the concrete high-confidence query
used by the repository test suite, at counts 3999, 4500 and 5000. -/
theorem C6_threshold_crossing_table_witness :
    (decide_chat_grounding "auto" "what was life like in this place for this migration?"
        3999 (some 100000) (some 4000) (some 5000)).decision_reason = "context_gap" ∧
    (decide_chat_grounding "auto" "what was life like in this place for this migration?"
        4500 (some 100000) (some 4000) (some 5000)).decision_reason = "context_gap_soft_cap" ∧
    (decide_chat_grounding "auto" "what was life like in this place for this migration?"
        5000 (some 100000) (some 4000) (some 5000)).decision_reason = "cap_blocked_hard" := by
  obtain ⟨h1, h2, h3⟩ :=
    C6_threshold_crossing_table
      "what was life like in this place for this migration?"
      (by decide) (by decide) (by decide)
  exact ⟨h1.1, (h2 4500 (by norm_num) (by norm_num)).1, (h3 5000 (Or.inl rfl)).1⟩

/-! ## Monthly usage accounting (grounding_usage.py)

The SQLAlchemy session over the SearchGroundingUsageMonthly table is modeled
as explicit state passing over a map from period starts to rows.  Commits by
concurrent writers between our read and our commit are an interference
function on that state; an IntegrityError is raised on commit exactly when a
staged insert meets a row that a concurrent writer created (the unique
constraint on period_start), or when a test double forces the failure, as the
repository test suite does with a flaky commit.  A rollback discards the
staged change, so the retry re-reads the database state. -/

/-- One row of the search_grounding_usage_monthly table. -/
structure UsageRow where
  grounded_prompts_count : Nat
  web_search_queries_count : Nat
  soft_cap_alert_sent_at : Option Nat
  hard_cap_alert_sent_at : Option Nat
deriving DecidableEq, Repr

/-- The unique key of a row: the first day of a UTC month. -/
structure PeriodStart where
  year : Nat
  month : Nat
deriving DecidableEq, Repr

/-- A UTC timestamp, to the granularity the claims need. -/
structure UtcDateTime where
  year : Nat
  month : Nat
  day : Nat
deriving DecidableEq, Repr

/-- Embedding of get_utc_month_start: first day of the UTC month of now. -/
def get_utc_month_start (now : UtcDateTime) : PeriodStart :=
  { year := now.year, month := now.month }

/-- The user database table, at most one row per period start. -/
def UserDb : Type := PeriodStart → Option UsageRow

/-- Insert or replace the row for one period. -/
def dbSet (db : UserDb) (p : PeriodStart) (r : UsageRow) : UserDb :=
  fun q => if q = p then some r else db q

/-- Increment the two counters of a row, leaving the alert timestamps alone,
as the update branch of record_monthly_grounding_usage does. -/
def applyDeltas (r : UsageRow) (gd qd : Nat) : UsageRow :=
  { r with grounded_prompts_count := r.grounded_prompts_count + gd,
           web_search_queries_count := r.web_search_queries_count + qd }

/-- Interference and fault injection for one call: what concurrent writers
commit between our read and our commit at each attempt, and whether a test
double forces the commit of each attempt to raise IntegrityError. -/
structure RecordEnv where
  forced1 : Bool
  forced2 : Bool
  interf1 : UserDb → UserDb
  interf2 : UserDb → UserDb

/-- Outcome of one read-modify-commit attempt of the retry loop: the database
after the attempt and, when the commit succeeded, the row it wrote. -/
structure CommitAttemptResult where
  db : UserDb
  written : Option UsageRow

/-- One iteration of the for-loop of record_monthly_grounding_usage: query
the row, stage an insert or an update, let concurrent writers commit, then
commit.  A staged insert conflicts when the row now exists; a staged update
is an UPDATE by primary key and does not hit the unique constraint. -/
def commitAttempt (db : UserDb) (p : PeriodStart) (gd qd : Nat)
    (interf : UserDb → UserDb) (forcedFailure : Bool) : CommitAttemptResult :=
  let r0 := db p
  let staged : UsageRow :=
    match r0 with
    | none =>
      { grounded_prompts_count := gd, web_search_queries_count := qd,
        soft_cap_alert_sent_at := none, hard_cap_alert_sent_at := none }
    | some r => applyDeltas r gd qd
  let db1 := interf db
  let conflict := forcedFailure || (r0.isNone && (db1 p).isSome)
  if conflict then { db := db1, written := none }
  else { db := dbSet db1 p staged, written := some staged }

/-- The snapshot dictionary returned on success. -/
structure UsageSnapshot where
  period_start : PeriodStart
  grounded_prompts_count : Nat
  web_search_queries_count : Nat
  grounded_prompts_delta : Nat
  web_search_queries_delta : Nat
deriving DecidableEq, Repr

inductive RecordOutcome where
  | noWrite
  | ok (snap : UsageSnapshot)
  | runtimeError
deriving DecidableEq, Repr

/-- Result of record_monthly_grounding_usage: the database afterwards, the
returned value, and the list of rows this call successfully committed (the
ghost trace used to state the exactly-once property). -/
structure RecordResult where
  db : UserDb
  outcome : RecordOutcome
  commits : List UsageRow

def snapshotOf (p : PeriodStart) (w : UsageRow) (gd qd : Nat) : UsageSnapshot :=
  { period_start := p,
    grounded_prompts_count := w.grounded_prompts_count,
    web_search_queries_count := w.web_search_queries_count,
    grounded_prompts_delta := gd,
    web_search_queries_delta := qd }

/-- Embedding of record_monthly_grounding_usage: zero-delta early return,
then at most two read-modify-commit attempts, then a final read. -/
def record_monthly_grounding_usage (grounding_attached : Bool)
    (web_search_query_count : Int) (now : UtcDateTime)
    (env : RecordEnv) (db : UserDb) : RecordResult :=
  let grounded_delta : Nat := if grounding_attached then 1 else 0
  let query_delta : Nat := (max (0 : Int) web_search_query_count).toNat
  let period_start := get_utc_month_start now
  if grounded_delta = 0 ∧ query_delta = 0 then
    { db := db, outcome := .noWrite, commits := [] }
  else
    match commitAttempt db period_start grounded_delta query_delta
        env.interf1 env.forced1 with
    | { db := db1, written := some w } =>
      { db := db1,
        outcome := .ok (snapshotOf period_start w grounded_delta query_delta),
        commits := [w] }
    | { db := db1, written := none } =>
      match commitAttempt db1 period_start grounded_delta query_delta
          env.interf2 env.forced2 with
      | { db := db2, written := some w } =>
        { db := db2,
          outcome := .ok (snapshotOf period_start w grounded_delta query_delta),
          commits := [w] }
      | { db := db2, written := none } =>
        match db2 period_start with
        | none => { db := db2, outcome := .runtimeError, commits := [] }
        | some usage =>
          { db := db2,
            outcome := .ok (snapshotOf period_start usage grounded_delta query_delta),
            commits := [] }

/-! ## Theorems about record_monthly_grounding_usage -/

theorem dbSet_same (db : UserDb) (p : PeriodStart) (r : UsageRow) :
    dbSet db p r p = some r := by
  simp [dbSet]

/-- Any row a successful commit attempt writes is the row the attempt read,
or a fresh zero row, with the deltas applied once; and the written row is
stored at the period key afterwards. -/
theorem commitAttempt_written_shape (db : UserDb) (p : PeriodStart)
    (gd qd : Nat) (interf : UserDb → UserDb) (forced : Bool) (w : UsageRow)
    (h : (commitAttempt db p gd qd interf forced).written = some w) :
    ∃ r0 : UsageRow, w = applyDeltas r0 gd qd ∧
      (commitAttempt db p gd qd interf forced).db p = some w := by
  simp only [commitAttempt] at h ⊢
  cases hdb : db p with
  | none =>
    simp only [hdb] at h ⊢
    split at h
    next hcond =>
      simp at h
    next hcond =>
      rw [if_neg hcond]
      simp only [Option.some.injEq] at h
      refine ⟨{ grounded_prompts_count := 0, web_search_queries_count := 0,
                soft_cap_alert_sent_at := none, hard_cap_alert_sent_at := none },
              ?_, ?_⟩
      · rw [← h]; simp [applyDeltas]
      · rw [← h]; simp [dbSet_same]
  | some r =>
    simp only [hdb] at h ⊢
    split at h
    next hcond =>
      simp at h
    next hcond =>
      rw [if_neg hcond]
      simp only [Option.some.injEq] at h
      exact ⟨r, h.symm, by rw [← h]; simp [dbSet_same]⟩

/-- When the interference of an attempt neither creates nor deletes the row
of the period (the benign-race contract of the spec: an insert race is
resolved before the retry re-reads), the attempt commits successfully and
applies the deltas exactly once to the row it read. -/
theorem commitAttempt_no_race_succeeds (db : UserDb) (p : PeriodStart)
    (gd qd : Nat) (interf : UserDb → UserDb)
    (hi : ((interf db) p).isSome = (db p).isSome) :
    ∃ r0 : UsageRow,
      (commitAttempt db p gd qd interf false).written = some (applyDeltas r0 gd qd) ∧
      (commitAttempt db p gd qd interf false).db p = some (applyDeltas r0 gd qd) := by
  cases hdb : db p with
  | none =>
    refine ⟨{ grounded_prompts_count := 0, web_search_queries_count := 0,
              soft_cap_alert_sent_at := none, hard_cap_alert_sent_at := none }, ?_⟩
    rw [hdb] at hi
    simp only [commitAttempt, hdb, Option.isNone_none, Bool.false_or, Bool.true_and]
    rw [Option.isSome_none] at hi
    simp [hi, dbSet_same, applyDeltas]
  | some r =>
    refine ⟨r, ?_⟩
    simp [commitAttempt, hdb, dbSet_same]

/-- C1: for every call of record_monthly_grounding_usage with a non-zero
delta, under the retry contract (an IntegrityError arises from the unique
constraint, i.e. from an insert race, and the retry attempt sees the row of
the winning writer, who neither deletes it nor re-creates it mid-attempt),
the caller delta is committed exactly once across the at-most-two write
attempts: the list of rows this call commits is exactly one row, that row is
the row read at the successful attempt with the delta applied once, it is the
stored row of the period afterwards, and the returned snapshot reports it.
The first attempt is allowed to fail for any reason, including the forced
flaky commit of the repository test. -/
theorem C1_delta_applied_exactly_once (attached : Bool) (q : Int)
    (now : UtcDateTime) (env : RecordEnv) (db : UserDb)
    (hdelta : attached = true ∨ 0 < q)
    (hf2 : env.forced2 = false)
    (hi2 : ∀ d : UserDb, ((env.interf2 d) (get_utc_month_start now)).isSome
             = (d (get_utc_month_start now)).isSome) :
    ∃ r0 : UsageRow,
      (record_monthly_grounding_usage attached q now env db).commits =
        [applyDeltas r0 (if attached then 1 else 0) (max (0 : Int) q).toNat] ∧
      (record_monthly_grounding_usage attached q now env db).outcome =
        .ok (snapshotOf (get_utc_month_start now)
              (applyDeltas r0 (if attached then 1 else 0) (max (0 : Int) q).toNat)
              (if attached then 1 else 0) (max (0 : Int) q).toNat) ∧
      (record_monthly_grounding_usage attached q now env db).db (get_utc_month_start now) =
        some (applyDeltas r0 (if attached then 1 else 0) (max (0 : Int) q).toNat) := by
  have hnz : ¬((if attached then 1 else 0) = 0 ∧ ((max (0 : Int) q).toNat = 0)) := by
    rcases hdelta with h | h
    · simp [h]
    · intro hc
      omega
  cases hA1 : commitAttempt db (get_utc_month_start now) (if attached then 1 else 0)
      ((max (0 : Int) q).toNat) env.interf1 env.forced1 with
  | mk db1 written1 =>
    cases written1 with
    | some w =>
      have h1 : (commitAttempt db (get_utc_month_start now) (if attached then 1 else 0)
          ((max (0 : Int) q).toNat) env.interf1 env.forced1).written = some w := by
        rw [hA1]
      obtain ⟨r0, hw, hdbp⟩ := commitAttempt_written_shape _ _ _ _ _ _ _ h1
      rw [hA1] at hdbp
      simp only [record_monthly_grounding_usage]
      rw [if_neg hnz]
      simp only [hA1]
      subst hw
      exact ⟨r0, rfl, rfl, by simpa using hdbp⟩
    | none =>
      obtain ⟨r0, hw, hdbp⟩ := commitAttempt_no_race_succeeds db1 (get_utc_month_start now)
        (if attached then 1 else 0) ((max (0 : Int) q).toNat) env.interf2 (hi2 db1)
      cases hA2 : commitAttempt db1 (get_utc_month_start now) (if attached then 1 else 0)
          ((max (0 : Int) q).toNat) env.interf2 false with
      | mk db2 written2 =>
        rw [hA2] at hw hdbp
        simp only at hw hdbp
        simp only [record_monthly_grounding_usage]
        rw [if_neg hnz]
        simp only [hA1]
        rw [hf2]
        simp only [hA2, hw]
        exact ⟨r0, rfl, rfl, by simpa using hdbp⟩

/-- C1 witness: the scenario of the repository test: empty table, the first
commit is forced to fail (flaky commit), the second succeeds, recording
attached = true and three queries; the snapshot and the stored row read
grounded_prompts_count 1 and web_search_queries_count 3, committed once. -/
theorem C1_delta_applied_exactly_once_witness :
    ∃ r0 : UsageRow,
      (record_monthly_grounding_usage true 3 { year := 2026, month := 2, day := 18 }
        { forced1 := true, forced2 := false, interf1 := id, interf2 := id }
        (fun _ => none)).commits = [applyDeltas r0 1 3] ∧
      (record_monthly_grounding_usage true 3 { year := 2026, month := 2, day := 18 }
        { forced1 := true, forced2 := false, interf1 := id, interf2 := id }
        (fun _ => none)).outcome =
        .ok (snapshotOf (get_utc_month_start { year := 2026, month := 2, day := 18 })
              (applyDeltas r0 1 3) 1 3) ∧
      (record_monthly_grounding_usage true 3 { year := 2026, month := 2, day := 18 }
        { forced1 := true, forced2 := false, interf1 := id, interf2 := id }
        (fun _ => none)).db (get_utc_month_start { year := 2026, month := 2, day := 18 }) =
        some (applyDeltas r0 1 3) := by
  have h := C1_delta_applied_exactly_once true 3 { year := 2026, month := 2, day := 18 }
    { forced1 := true, forced2 := false, interf1 := id, interf2 := id }
    (fun _ => none) (Or.inl rfl) rfl (fun d => rfl)
  simpa using h

/-- C10: a call with grounding_attached false and a non-positive query count
performs no write: it returns None, commits nothing, and the stored counters
of every period are unchanged. -/
theorem C10_zero_delta_is_a_no_op (q : Int) (now : UtcDateTime)
    (env : RecordEnv) (db : UserDb) (hq : q ≤ 0) :
    (record_monthly_grounding_usage false q now env db).outcome = .noWrite ∧
    (record_monthly_grounding_usage false q now env db).commits = [] ∧
    ∀ p : PeriodStart, (record_monthly_grounding_usage false q now env db).db p = db p := by
  have hzero : (max (0 : Int) q).toNat = 0 := by omega
  unfold record_monthly_grounding_usage
  rw [if_pos ⟨by simp, hzero⟩]
  exact ⟨rfl, rfl, fun p => rfl⟩

/-- C10 witness: recording attached = false with query count -2 on a table
holding one row leaves the table unchanged and returns None. -/
theorem C10_zero_delta_is_a_no_op_witness :
    (record_monthly_grounding_usage false (-2) { year := 2026, month := 3, day := 1 }
      { forced1 := false, forced2 := false, interf1 := id, interf2 := id }
      (fun _ => some { grounded_prompts_count := 7, web_search_queries_count := 9,
                       soft_cap_alert_sent_at := none,
                       hard_cap_alert_sent_at := none })).outcome = .noWrite ∧
    (record_monthly_grounding_usage false (-2) { year := 2026, month := 3, day := 1 }
      { forced1 := false, forced2 := false, interf1 := id, interf2 := id }
      (fun _ => some { grounded_prompts_count := 7, web_search_queries_count := 9,
                       soft_cap_alert_sent_at := none,
                       hard_cap_alert_sent_at := none })).db { year := 2026, month := 2 } =
      some { grounded_prompts_count := 7, web_search_queries_count := 9,
             soft_cap_alert_sent_at := none, hard_cap_alert_sent_at := none } := by
  have h := C10_zero_delta_is_a_no_op (-2) { year := 2026, month := 3, day := 1 }
    { forced1 := false, forced2 := false, interf1 := id, interf2 := id }
    (fun _ => some { grounded_prompts_count := 7, web_search_queries_count := 9,
                     soft_cap_alert_sent_at := none,
                     hard_cap_alert_sent_at := none }) (by norm_num)
  exact ⟨h.1, h.2.2 { year := 2026, month := 2 }⟩

/-! ## Threshold alerts (maybe_record_threshold_alerts) -/

/-- Embedding of the inner _parse_cap: unparseable or non-positive caps are
discarded. -/
def _parse_cap (value : Option Int) : Option Int :=
  match value with
  | none => none
  | some c => if c ≤ 0 then none else some c

/-- One threshold fires when its cap is present (hence positive), the count
has reached or passed it, and its alert timestamp is still unset. -/
def fireCond (limit : Option Int) (count : Int) (ts : Option Nat) : Bool :=
  capReached limit count && ts.isNone

/-- The dictionary maybe_record_threshold_alerts returns.  The early returns
of the Python function carry no timestamp keys; absent keys are none here. -/
structure AlertResult where
  triggered : List String
  soft_cap_alert_sent_at : Option Nat
  hard_cap_alert_sent_at : Option Nat
deriving DecidableEq, Repr

/-- The body of maybe_record_threshold_alerts once the period row has been
read: mutate the row for each threshold that fires, in the order of the
source (soft first), and collect the triggered names. -/
def alertRowStep (soft_limit hard_limit : Option Int) (count : Int)
    (now : Nat) (usage : UsageRow) : UsageRow × List String :=
  let fireSoft := fireCond soft_limit count usage.soft_cap_alert_sent_at
  let usage1 := if fireSoft then
      { usage with soft_cap_alert_sent_at := some now } else usage
  let fireHard := fireCond hard_limit count usage1.hard_cap_alert_sent_at
  let usage2 := if fireHard then
      { usage1 with hard_cap_alert_sent_at := some now } else usage1
  (usage2,
   (if fireSoft then ["soft_cap"] else []) ++
   (if fireHard then ["hard_cap"] else []))

/-- Result of one call: the database afterwards, the returned dictionary, and
whether the call committed. -/
structure AlertStep where
  db : UserDb
  result : AlertResult
  committed : Bool

/-- Embedding of maybe_record_threshold_alerts.  The period argument is the
already-parsed optional period start; the count is the already-coerced int.
The in-session mutations of the row become a row update that is persisted
exactly when the function commits, which it does iff a threshold newly
triggered (when none does, the row was not mutated at all). -/
def maybe_record_threshold_alerts (db : UserDb) (period_start : Option PeriodStart)
    (grounded_prompts_count : Int) (soft_cap hard_cap : Option Int)
    (now : Nat) : AlertStep :=
  match period_start with
  | none =>
    { db := db,
      result := { triggered := [], soft_cap_alert_sent_at := none,
                  hard_cap_alert_sent_at := none },
      committed := false }
  | some parsed =>
    let soft_limit := _parse_cap soft_cap
    let hard_limit := _parse_cap hard_cap
    match db parsed with
    | none =>
      { db := db,
        result := { triggered := [], soft_cap_alert_sent_at := none,
                    hard_cap_alert_sent_at := none },
        committed := false }
    | some usage =>
      match alertRowStep soft_limit hard_limit grounded_prompts_count now usage with
      | (usage2, triggered) =>
        let committed := !triggered.isEmpty
        { db := if committed then dbSet db parsed usage2 else db,
          result := { triggered := triggered,
                      soft_cap_alert_sent_at := usage2.soft_cap_alert_sent_at,
                      hard_cap_alert_sent_at := usage2.hard_cap_alert_sent_at },
          committed := committed }

theorem fireCond_some (l : Option Int) (c : Int) (m : Nat) :
    fireCond l c (some m) = false := by
  simp [fireCond]

theorem alertRowStep_soft_mem (sl hl : Option Int) (c : Int) (n : Nat) (u : UsageRow) :
    "soft_cap" ∈ (alertRowStep sl hl c n u).2 ↔
      (capReached sl c = true ∧ u.soft_cap_alert_sent_at = none) := by
  have hfs : fireCond sl c u.soft_cap_alert_sent_at = true ↔
      (capReached sl c = true ∧ u.soft_cap_alert_sent_at = none) := by
    simp [fireCond, Bool.and_eq_true, Option.isNone_iff_eq_none]
  cases hs : fireCond sl c u.soft_cap_alert_sent_at <;>
    cases hh : fireCond hl c u.hard_cap_alert_sent_at <;>
      simp_all [alertRowStep]

theorem alertRowStep_hard_mem (sl hl : Option Int) (c : Int) (n : Nat) (u : UsageRow) :
    "hard_cap" ∈ (alertRowStep sl hl c n u).2 ↔
      (capReached hl c = true ∧ u.hard_cap_alert_sent_at = none) := by
  have hfh : fireCond hl c u.hard_cap_alert_sent_at = true ↔
      (capReached hl c = true ∧ u.hard_cap_alert_sent_at = none) := by
    simp [fireCond, Bool.and_eq_true, Option.isNone_iff_eq_none]
  cases hs : fireCond sl c u.soft_cap_alert_sent_at <;>
    cases hh : fireCond hl c u.hard_cap_alert_sent_at <;>
      simp_all [alertRowStep]

/-- Applying the row step again, with any later timestamp, triggers nothing
and leaves the row as it was after the first application. -/
theorem alertRowStep_idempotent (sl hl : Option Int) (c : Int) (n1 n2 : Nat)
    (u : UsageRow) :
    (alertRowStep sl hl c n2 (alertRowStep sl hl c n1 u).1).2 = [] ∧
    (alertRowStep sl hl c n2 (alertRowStep sl hl c n1 u).1).1 =
      (alertRowStep sl hl c n1 u).1 := by
  cases hs : fireCond sl c u.soft_cap_alert_sent_at <;>
    cases hh : fireCond hl c u.hard_cap_alert_sent_at <;>
      simp_all [alertRowStep, fireCond_some]

/-- A call that triggers nothing does not touch the row. -/
theorem alertRowStep_empty_eq (sl hl : Option Int) (c : Int) (n : Nat)
    (u : UsageRow) (h : (alertRowStep sl hl c n u).2 = []) :
    (alertRowStep sl hl c n u).1 = u := by
  cases hs : fireCond sl c u.soft_cap_alert_sent_at <;>
    cases hh : fireCond hl c u.hard_cap_alert_sent_at <;>
      simp_all [alertRowStep]

/-- C7: per period, each threshold alert timestamp is set at most once.  A
threshold is in the triggered list of a call iff the period row exists, the
parsed cap is positive and reached, and the stored timestamp was unset; the
call commits iff some threshold newly triggered; and an identical second call
after the first returns an empty triggered list, does not commit, and leaves
the database (hence the stored timestamps) unchanged. -/
theorem C7_alerts_fire_once_per_period (db : UserDb) (period : Option PeriodStart)
    (count : Int) (soft hard : Option Int) (now1 now2 : Nat) :
    ("soft_cap" ∈ (maybe_record_threshold_alerts db period count soft hard now1).result.triggered ↔
       ∃ p r, period = some p ∧ db p = some r ∧
         capReached (_parse_cap soft) count = true ∧ r.soft_cap_alert_sent_at = none) ∧
    ("hard_cap" ∈ (maybe_record_threshold_alerts db period count soft hard now1).result.triggered ↔
       ∃ p r, period = some p ∧ db p = some r ∧
         capReached (_parse_cap hard) count = true ∧ r.hard_cap_alert_sent_at = none) ∧
    ((maybe_record_threshold_alerts db period count soft hard now1).committed = true ↔
       (maybe_record_threshold_alerts db period count soft hard now1).result.triggered ≠ []) ∧
    (maybe_record_threshold_alerts
        (maybe_record_threshold_alerts db period count soft hard now1).db
        period count soft hard now2).result.triggered = [] ∧
    (maybe_record_threshold_alerts
        (maybe_record_threshold_alerts db period count soft hard now1).db
        period count soft hard now2).db =
      (maybe_record_threshold_alerts db period count soft hard now1).db := by
  cases period with
  | none => simp [maybe_record_threshold_alerts]
  | some p =>
    cases hdb : db p with
    | none => simp [maybe_record_threshold_alerts, hdb]
    | some usage =>
      cases hstep : alertRowStep (_parse_cap soft) (_parse_cap hard) count now1 usage with
      | mk usage2 triggered =>
        have e1 : maybe_record_threshold_alerts db (some p) count soft hard now1 =
            { db := if !triggered.isEmpty then dbSet db p usage2 else db,
              result := { triggered := triggered,
                          soft_cap_alert_sent_at := usage2.soft_cap_alert_sent_at,
                          hard_cap_alert_sent_at := usage2.hard_cap_alert_sent_at },
              committed := !triggered.isEmpty } := by
          simp only [maybe_record_threshold_alerts, hdb, hstep]
        have hsoftm := alertRowStep_soft_mem (_parse_cap soft) (_parse_cap hard) count now1 usage
        have hhardm := alertRowStep_hard_mem (_parse_cap soft) (_parse_cap hard) count now1 usage
        rw [hstep] at hsoftm hhardm
        have hidem := alertRowStep_idempotent (_parse_cap soft) (_parse_cap hard) count now1 now2 usage
        rw [hstep] at hidem
        have hrow : (if !triggered.isEmpty then dbSet db p usage2 else db) p = some usage2 := by
          by_cases ht : triggered.isEmpty = true
          · have ht2 : triggered = [] := by simpa using ht
            have hu : usage2 = usage := by
              have h0 := alertRowStep_empty_eq (_parse_cap soft) (_parse_cap hard)
                count now1 usage (by rw [hstep]; exact ht2)
              rw [hstep] at h0
              exact h0
            simp [ht, hdb, hu]
          · simp only [ht, Bool.not_false]
            simp [Bool.not_eq_true] at ht
            simp [ht, dbSet_same]
        have hstep2 : alertRowStep (_parse_cap soft) (_parse_cap hard) count now2 usage2 =
            (usage2, []) := by
          obtain ⟨h1, h2⟩ := hidem
          cases hx : alertRowStep (_parse_cap soft) (_parse_cap hard) count now2 usage2 with
          | mk a b =>
            rw [hx] at h1 h2
            have hb : b = [] := h1
            have ha : a = usage2 := h2
            rw [hb, ha]
        have e2 : maybe_record_threshold_alerts
            (if !triggered.isEmpty then dbSet db p usage2 else db)
            (some p) count soft hard now2 =
            { db := (if !triggered.isEmpty then dbSet db p usage2 else db),
              result := { triggered := [],
                          soft_cap_alert_sent_at := usage2.soft_cap_alert_sent_at,
                          hard_cap_alert_sent_at := usage2.hard_cap_alert_sent_at },
              committed := false } := by
          simp only [maybe_record_threshold_alerts, hrow, hstep2]
          simp
        refine ⟨?_, ?_, ?_, ?_, ?_⟩
        · rw [e1]
          constructor
          · intro h
            have hc := hsoftm.mp (by simpa using h)
            exact ⟨p, usage, rfl, hdb, hc.1, hc.2⟩
          · rintro ⟨p2, r, hp, hr, hcap, hts⟩
            have hp2 : p2 = p := by injection hp with h; exact h.symm
            subst hp2
            rw [hdb] at hr
            have hr2 : r = usage := by injection hr with h; exact h.symm
            subst hr2
            simpa using hsoftm.mpr ⟨hcap, hts⟩
        · rw [e1]
          constructor
          · intro h
            have hc := hhardm.mp (by simpa using h)
            exact ⟨p, usage, rfl, hdb, hc.1, hc.2⟩
          · rintro ⟨p2, r, hp, hr, hcap, hts⟩
            have hp2 : p2 = p := by injection hp with h; exact h.symm
            subst hp2
            rw [hdb] at hr
            have hr2 : r = usage := by injection hr with h; exact h.symm
            subst hr2
            simpa using hhardm.mpr ⟨hcap, hts⟩
        · rw [e1]
          simp
        · rw [e1, e2]
        · rw [e1, e2]

/-! ## Tool-call orchestration loop (agent.py)

The Gemini client and the tool dispatcher are oracle parameters: the model is
a function from the index of the generate_content call to a response (a list
of parts) or a raised exception, and the dispatcher maps a tool name and
arguments to a textual result or a raised exception.  Python exceptions are
Except.error; the source installs no handler around either call, so errors
propagate monadically. -/

inductive Part where
  | text (s : String)
  | call (name : String) (args : List (String × String))
deriving DecidableEq, Repr

def Part.isCall : Part → Bool
  | .call _ _ => true
  | .text _ => false

inductive Content where
  | userText (s : String)
  | modelMsg (parts : List Part)
  | toolResults (results : List (String × String))
deriving DecidableEq, Repr

/-- Insertion into an association list sorted by key. -/
def insertByKey (kv : String × String) : List (String × String) → List (String × String)
  | [] => [kv]
  | x :: xs => if kv.1 < x.1 then kv :: x :: xs else x :: insertByKey kv xs

/-- Sort an association list by key, as json.dumps with sort_keys does. -/
def sortByKey (l : List (String × String)) : List (String × String) :=
  l.foldr insertByKey []

/-- Rendering of json.dumps(args, sort_keys=True) for a flat string dict. -/
def json_dumps_sorted (args : List (String × String)) : String :=
  "\x7b" ++
    String.intercalate ", "
      ((sortByKey args).map (fun kv => "\"" ++ kv.1 ++ "\": \"" ++ kv.2 ++ "\"")) ++
  "\x7d"

/-- The canonical tool-call signature: name, colon, sorted-keys JSON dump. -/
def toolCallSignature (name : String) (args : List (String × String)) : String :=
  name ++ ":" ++ json_dumps_sorted args

/-- The signatures of the tool calls of one model response, in order. -/
def respSignatures (parts : List Part) : List String :=
  parts.filterMap (fun p =>
    match p with
    | Part.call n a => some (toolCallSignature n a)
    | Part.text _ => none)

/-- Dict-style lookup in the tool result cache. -/
def cacheLookup (c : List (String × String)) (s : String) : Option String :=
  match c with
  | [] => none
  | kv :: t => if s = kv.1 then some kv.2 else cacheLookup t s

/-- Mutable state of the tool-call loop, with the ghost logs needed to state
cache correctness: the signatures passed to the dispatcher and, per model
call, whether tools were configured on it. -/
structure LoopSt where
  contents : List Content
  prevSigs : Option (List String)
  repeated : Nat
  cache : List (String × String)
  dispatchLog : List String
  callLog : List Bool

/-- Execute the function calls of one round in order: cached signatures are
served from the cache without calling the dispatcher; misses are dispatched
(exceptions propagate) and cached.  Returns the function-response parts. -/
def execRound (dispatch : String → List (String × String) → Except String String) :
    List Part → LoopSt → Except String (LoopSt × List (String × String))
  | [], st => Except.ok (st, [])
  | Part.text _ :: rest, st => execRound dispatch rest st
  | Part.call n a :: rest, st =>
    let sig := toolCallSignature n a
    match cacheLookup st.cache sig with
    | some r =>
      match execRound dispatch rest st with
      | Except.ok (st2, acc) => Except.ok (st2, (n, r) :: acc)
      | Except.error e => Except.error e
    | none =>
      match dispatch n a with
      | Except.error e => Except.error e
      | Except.ok r =>
        match execRound dispatch rest
            { st with cache := st.cache ++ [(sig, r)],
                      dispatchLog := st.dispatchLog ++ [sig] } with
        | Except.ok (st2, acc) => Except.ok (st2, (n, r) :: acc)
        | Except.error e => Except.error e

/-- What the loop hands back to run_agent: final state, the last response,
the has_function_call flag, whether loop-breaking forced synthesis, and
whether the loop ended on its very last allowed iteration. -/
structure LoopOut where
  st : LoopSt
  response : List Part
  hasFn : Bool
  forced : Bool
  lastIter : Bool

/-- Outcome of one iteration of the loop body: either the loop ends here, or
it continues with the updated state. -/
inductive IterOut where
  | stop (out : LoopOut)
  | next (st : LoopSt)

/-- One iteration of the for-loop body of run_agent.  isLast says whether
this is the final allowed iteration (Python: iteration = max_iterations - 1).
hasFn carries the has_function_call value of the previous iteration, which
Python retains when a response arrives with no parts. -/
def agentIter (model : Nat → Except String (List Part))
    (dispatch : String → List (String × String) → Except String String)
    (maxRepeat : Nat) (isLast hasFn : Bool) (st : LoopSt) :
    Except String IterOut :=
  match model st.callLog.length with
  | Except.error e => Except.error e
  | Except.ok resp =>
    let st := { st with callLog := st.callLog ++ [true] }
    if resp.isEmpty then
      Except.ok (.stop { st := st, response := resp, hasFn := hasFn,
                         forced := false, lastIter := isLast })
    else
      if !resp.any Part.isCall then
        Except.ok (.stop { st := st, response := resp, hasFn := false,
                           forced := false, lastIter := isLast })
      else
        let sigs := respSignatures resp
        let repeated := if st.prevSigs = some sigs then st.repeated + 1 else 0
        let st := { st with prevSigs := some sigs, repeated := repeated }
        if maxRepeat ≤ repeated then
          Except.ok (.stop { st := st, response := resp, hasFn := true,
                             forced := true, lastIter := isLast })
        else
          let st := { st with contents := st.contents ++ [Content.modelMsg resp] }
          match execRound dispatch resp st with
          | Except.error e => Except.error e
          | Except.ok (st2, results) =>
            let st3 := { st2 with
              contents := st2.contents ++ [Content.toolResults results] }
            if isLast then
              Except.ok (.stop { st := st3, response := resp, hasFn := true,
                                 forced := false, lastIter := true })
            else Except.ok (.next st3)

/-- The for-iteration-in-range(max_iterations) loop of run_agent.  fuel is
the number of iterations left; the loop is entered with fuel ≥ 1. -/
def agentLoop (model : Nat → Except String (List Part))
    (dispatch : String → List (String × String) → Except String String)
    (maxRepeat : Nat) :
    Nat → Bool → LoopSt → Except String LoopOut
  | 0, hasFn, st =>
    -- not reachable from runAgent, which enters with fuel = max 1 max_iterations
    Except.ok { st := st, response := [], hasFn := hasFn, forced := false,
                lastIter := true }
  | fuel + 1, hasFn, st =>
    match agentIter model dispatch maxRepeat (fuel == 0) hasFn st with
    | Except.error e => Except.error e
    | Except.ok (.stop out) => Except.ok out
    | Except.ok (.next st3) => agentLoop model dispatch maxRepeat fuel true st3

def SYNTHESIS_PROMPT : String :=
  "Please provide your answer now based on the information you've gathered. " ++
  "Synthesize what you've learned into a helpful response."

/-- The observable outcome of one successful run. -/
structure RunResult where
  response : List Part
  contents : List Content
  dispatchLog : List String
  callLog : List Bool
  forcedSynthesis : Bool
deriving DecidableEq, Repr

/-- Embedding of run_agent: clamp the knobs, run the tool loop, and when
loop-breaking fired or the last iteration still wanted tools, append the
synthesis instruction and make one final model call with tools disabled. -/
def runAgent (model : Nat → Except String (List Part))
    (dispatch : String → List (String × String) → Except String String)
    (prompt : String) (max_iterations max_repeated_function_calls : Nat) :
    Except String RunResult :=
  let maxIter := max 1 max_iterations
  let maxRep := max 1 max_repeated_function_calls
  let st0 : LoopSt :=
    { contents := [Content.userText prompt], prevSigs := none, repeated := 0,
      cache := [], dispatchLog := [], callLog := [] }
  match agentLoop model dispatch maxRep maxIter false st0 with
  | Except.error e => Except.error e
  | Except.ok out =>
    if out.forced || (out.lastIter && out.hasFn) then
      let st := { out.st with
        contents := out.st.contents ++ [Content.userText SYNTHESIS_PROMPT] }
      match model st.callLog.length with
      | Except.error e => Except.error e
      | Except.ok resp =>
        Except.ok { response := resp, contents := st.contents,
                    dispatchLog := st.dispatchLog,
                    callLog := st.callLog ++ [false],
                    forcedSynthesis := out.forced }
    else
      Except.ok { response := out.response, contents := out.st.contents,
                  dispatchLog := out.st.dispatchLog, callLog := out.st.callLog,
                  forcedSynthesis := out.forced }

/-! ## Tool dispatch (execute_tool_call)

execute_tool_call dispatches on the tool name and calls the tool function as
f(ctx, tool_args-expanded-as-keywords).  Python binds the keyword arguments
against the function signature first: an unexpected keyword or a missing
required one raises TypeError before the tool body runs, and neither
execute_tool_call nor the round loop installs a handler.  The tool bodies are
abstract implementations here (an impls oracle; a body that catches its own
exceptions returns ok, one that raises returns error).  get_current_date and
get_tree_statistics are called without the arguments, as in the source. -/

structure ToolSig where
  required : List String
  optional : List String
deriving DecidableEq, Repr

instance {ε α : Type} [DecidableEq ε] [DecidableEq α] : DecidableEq (Except ε α) :=
  fun a b =>
    match a, b with
    | .ok x, .ok y =>
      if h : x = y then isTrue (by rw [h]) else isFalse (by simp [h])
    | .error x, .error y =>
      if h : x = y then isTrue (by rw [h]) else isFalse (by simp [h])
    | .ok _, .error _ => isFalse (by simp)
    | .error _, .ok _ => isFalse (by simp)

def lookupToolSig : List (String × ToolSig) → String → Option ToolSig
  | [], _ => none
  | kv :: t, n => if n = kv.1 then some kv.2 else lookupToolSig t n

/-- The keyword signatures of the dispatched tools, from their definitions in
tools.py.  The last three tools are absent from the source snapshot (only
imported and dispatched); their signatures are modelled from the parameter
schemas and required lists that _make_tool_wrappers declares for them. -/
def toolSigs : List (String × ToolSig) :=
  [("search_genealogy_database", { required := ["query"], optional := ["max_results"] }),
   ("filter_people",
    { required := [],
      optional := ["given_name", "surname", "birth_year_before", "birth_year_after",
                   "birth_place", "death_year_before", "death_year_after", "death_place",
                   "ancestor_of", "ancestor_generations", "descendant_of",
                   "descendant_generations", "is_male", "is_female",
                   "probably_alive_on_date", "has_common_ancestor_with",
                   "degrees_of_separation_from", "degrees_of_separation",
                   "combine_filters", "max_results", "show_relation_with"] }),
   ("filter_events",
    { required := [],
      optional := ["event_type", "date_before", "date_after", "place",
                   "description_contains", "participant_id", "participant_role",
                   "max_results"] }),
   ("get_person_full_details", { required := [], optional := ["gramps_id", "handle"] }),
   ("get_family_details", { required := [], optional := ["family_handle", "gramps_id"] }),
   ("find_relationship_path", { required := ["person1_id", "person2_id"], optional := [] }),
   ("find_coincidences_and_clusters",
    { required := [], optional := ["category", "max_results"] }),
   ("analyze_migration_patterns",
    { required := [], optional := ["surname", "start_year", "end_year"] }),
   ("find_data_quality_issues",
    { required := [], optional := ["issue_type", "max_results"] }),
   ("analyze_naming_patterns",
    { required := [], optional := ["surname", "max_generations"] }),
   ("get_occupation_summary",
    { required := [], optional := ["surname", "start_year", "end_year"] }),
   ("get_data_quality_issues",
    { required := [], optional := ["issue_type", "max_results"] }),
   ("update_person_field",
    { required := ["gramps_id", "field", "value"], optional := ["reason"] }),
   ("add_event_to_person",
    { required := ["gramps_id", "event_type", "year"],
      optional := ["month", "day", "place_name", "reason"] })]

/-- Python keyword binding succeeds iff every passed keyword is a parameter
and every required parameter is passed. -/
def bindOk (sig : ToolSig) (args : List (String × String)) : Bool :=
  args.all (fun kv => sig.required.contains kv.1 || sig.optional.contains kv.1) &&
  sig.required.all (fun k => (args.map Prod.fst).contains k)

/-- Embedding of execute_tool_call.  The impls oracle stands for the tool
bodies; Python exceptions on either side are Except.error. -/
def execute_tool_call
    (impls : String → List (String × String) → Except String String)
    (tool_name : String) (tool_args : List (String × String)) :
    Except String String :=
  if tool_name = "get_current_date" then impls "get_current_date" []
  else if tool_name = "get_tree_statistics" then impls "get_tree_statistics" []
  else
    match lookupToolSig toolSigs tool_name with
    | some sig =>
      if bindOk sig tool_args then impls tool_name tool_args
      else Except.error ("TypeError: unexpected or missing arguments for " ++ tool_name)
    | none => Except.ok ("Unknown tool: " ++ tool_name)

/-! ## Theorems about tool dispatch and model-failure handling -/

/-- C4 counterexample: dispatching filter_people with an unexpected keyword
raises a TypeError that execute_tool_call does not convert into a textual
result, and the same exception propagates out of the round loop and aborts
the whole run, even though the tool implementation itself (modeled as always
returning a textual result) never raised. -/
theorem C4_binding_error_aborts_run :
    execute_tool_call (fun _ _ => Except.ok "ok") "filter_people"
        [("bogus_argument", "x")] =
      Except.error "TypeError: unexpected or missing arguments for filter_people" ∧
    runAgent
      (fun k => if k = 0 then
          Except.ok [Part.call "filter_people" [("bogus_argument", "x")]]
        else Except.ok [Part.text "done"])
      (execute_tool_call (fun _ _ => Except.ok "ok"))
      "prompt" 10 2 =
      Except.error "TypeError: unexpected or missing arguments for filter_people" :=
  ⟨by decide, by decide⟩

/-- C4 amended: execute_tool_call converts unknown tool names into a textual
result, drops the arguments of get_current_date and get_tree_statistics, and
for every other known tool passes the outcome of the implementation through
unchanged, whether textual or exceptional, once keyword binding succeeds;
when binding fails (unexpected or missing arguments) the TypeError is not
caught and propagates. -/
theorem C4_dispatch_characterization
    (impls : String → List (String × String) → Except String String)
    (name : String) (args : List (String × String)) :
    (execute_tool_call impls "get_current_date" args = impls "get_current_date" []) ∧
    (execute_tool_call impls "get_tree_statistics" args = impls "get_tree_statistics" []) ∧
    (name ≠ "get_current_date" → name ≠ "get_tree_statistics" →
      lookupToolSig toolSigs name = none →
      execute_tool_call impls name args = Except.ok ("Unknown tool: " ++ name)) ∧
    (∀ sig, name ≠ "get_current_date" → name ≠ "get_tree_statistics" →
      lookupToolSig toolSigs name = some sig → bindOk sig args = true →
      execute_tool_call impls name args = impls name args) ∧
    (∀ sig, name ≠ "get_current_date" → name ≠ "get_tree_statistics" →
      lookupToolSig toolSigs name = some sig → bindOk sig args = false →
      execute_tool_call impls name args =
        Except.error ("TypeError: unexpected or missing arguments for " ++ name)) := by
  refine ⟨by simp [execute_tool_call], by simp [execute_tool_call], ?_, ?_, ?_⟩
  · intro h1 h2 hl
    simp [execute_tool_call, h1, h2, hl]
  · intro sig h1 h2 hl hb
    simp [execute_tool_call, h1, h2, hl, hb]
  · intro sig h1 h2 hl hb
    simp [execute_tool_call, h1, h2, hl, hb]

/-- C4 amended witness: the filter_people tool called with a well-bound
surname argument returns exactly what the implementation returns. -/
theorem C4_dispatch_characterization_witness :
    lookupToolSig toolSigs "filter_people" =
      some { required := [],
             optional := ["given_name", "surname", "birth_year_before",
                          "birth_year_after", "birth_place", "death_year_before",
                          "death_year_after", "death_place", "ancestor_of",
                          "ancestor_generations", "descendant_of",
                          "descendant_generations", "is_male", "is_female",
                          "probably_alive_on_date", "has_common_ancestor_with",
                          "degrees_of_separation_from", "degrees_of_separation",
                          "combine_filters", "max_results", "show_relation_with"] } ∧
    execute_tool_call (fun _ _ => Except.ok "two results") "filter_people"
        [("surname", "Olson")] = Except.ok "two results" := by
  have hsig : lookupToolSig toolSigs "filter_people" =
      some { required := [],
             optional := ["given_name", "surname", "birth_year_before",
                          "birth_year_after", "birth_place", "death_year_before",
                          "death_year_after", "death_place", "ancestor_of",
                          "ancestor_generations", "descendant_of",
                          "descendant_generations", "is_male", "is_female",
                          "probably_alive_on_date", "has_common_ancestor_with",
                          "degrees_of_separation_from", "degrees_of_separation",
                          "combine_filters", "max_results", "show_relation_with"] } := by
    decide
  refine ⟨hsig, ?_⟩
  exact (C4_dispatch_characterization (fun _ _ => Except.ok "two results")
      "filter_people" [("surname", "Olson")]).2.2.2.1 _
    (by decide) (by decide) hsig (by decide)

/-! ## Cache correctness of the tool loop -/

theorem cacheLookup_append_isSome (c : List (String × String))
    (kv : String × String) (s : String)
    (h : (cacheLookup c s).isSome = true) :
    (cacheLookup (c ++ [kv]) s).isSome = true := by
  induction c with
  | nil => simp [cacheLookup] at h
  | cons x t ih =>
    simp only [cacheLookup, List.cons_append] at h ⊢
    split at h
    · simp [*]
    · simp only [*]
      exact ih h

theorem cacheLookup_append_self (c : List (String × String)) (s r : String) :
    (cacheLookup (c ++ [(s, r)]) s).isSome = true := by
  induction c with
  | nil => simp [cacheLookup]
  | cons x t ih =>
    simp only [cacheLookup, List.cons_append]
    split
    · simp
    · exact ih

/-- The invariant tying the dispatch log to the cache: every dispatched
signature was cached, and no signature was dispatched twice. -/
def InvCache (st : LoopSt) : Prop :=
  st.dispatchLog.Nodup ∧
  ∀ s ∈ st.dispatchLog, (cacheLookup st.cache s).isSome = true

theorem execRound_inv
    (dispatch : String → List (String × String) → Except String String) :
    ∀ (parts : List Part) (st st2 : LoopSt) (acc : List (String × String)),
      InvCache st → execRound dispatch parts st = Except.ok (st2, acc) →
      InvCache st2 := by
  intro parts
  induction parts with
  | nil =>
    intro st st2 acc hinv h
    simp only [execRound] at h
    cases h
    exact hinv
  | cons p rest ih =>
    intro st st2 acc hinv h
    cases p with
    | text s =>
      simp only [execRound] at h
      exact ih st st2 acc hinv h
    | call n a =>
      simp only [execRound] at h
      cases hc : cacheLookup st.cache (toolCallSignature n a) with
      | some r =>
        simp only [hc] at h
        cases hrec : execRound dispatch rest st with
        | ok pr =>
          obtain ⟨st2x, accx⟩ := pr
          simp only [hrec, Except.ok.injEq, Prod.mk.injEq] at h
          obtain ⟨h1, h2⟩ := h
          exact h1 ▸ ih st st2x accx hinv hrec
        | error e =>
          simp only [hrec] at h
          exact Except.noConfusion h
      | none =>
        simp only [hc] at h
        cases hd : dispatch n a with
        | error e =>
          simp only [hd] at h
          exact Except.noConfusion h
        | ok r =>
          simp only [hd] at h
          have hnotin : toolCallSignature n a ∉ st.dispatchLog := by
            intro hmem
            have := hinv.2 _ hmem
            rw [hc] at this
            cases this
          have hinv2 : InvCache
              { st with cache := st.cache ++ [(toolCallSignature n a, r)],
                        dispatchLog := st.dispatchLog ++ [toolCallSignature n a] } := by
            constructor
            · simpa [List.nodup_append] using ⟨hinv.1, hnotin⟩
            · intro s hs
              rcases List.mem_append.mp hs with hs | hs
              · exact cacheLookup_append_isSome _ _ _ (hinv.2 _ hs)
              · simp only [List.mem_singleton] at hs
                subst hs
                exact cacheLookup_append_self _ _ _
          cases hrec : execRound dispatch rest
              { st with cache := st.cache ++ [(toolCallSignature n a, r)],
                        dispatchLog := st.dispatchLog ++ [toolCallSignature n a] } with
          | ok pr =>
            obtain ⟨st2x, accx⟩ := pr
            simp only [hrec, Except.ok.injEq, Prod.mk.injEq] at h
            obtain ⟨h1, h2⟩ := h
            exact h1 ▸ ih _ st2x accx hinv2 hrec
          | error e => simp [hrec] at h

theorem agentIter_inv
    (model : Nat → Except String (List Part))
    (dispatch : String → List (String × String) → Except String String)
    (mr : Nat) (isLast hFn : Bool) (st : LoopSt) (r : IterOut)
    (hinv : InvCache st)
    (h : agentIter model dispatch mr isLast hFn st = Except.ok r) :
    (∀ out, r = .stop out → InvCache out.st) ∧
    (∀ st3, r = .next st3 → InvCache st3) := by
  simp only [agentIter] at h
  cases hm : model st.callLog.length with
  | error e =>
    simp only [hm] at h
    exact Except.noConfusion h
  | ok resp =>
    simp only [hm] at h
    by_cases hemp : resp.isEmpty = true
    · simp only [hemp, if_true] at h
      cases h
      constructor
      · intro out hout
        cases hout
        exact hinv
      · intro st3 hst3
        cases hst3
    · simp only [hemp, if_false] at h
      by_cases hfn : (!resp.any Part.isCall) = true
      · simp only [hfn, if_true] at h
        cases h
        constructor
        · intro out hout
          cases hout
          exact hinv
        · intro st3 hst3
          cases hst3
      · simp only [hfn, if_false] at h
        by_cases hrep : mr ≤ (if st.prevSigs = some (respSignatures resp)
            then st.repeated + 1 else 0)
        · rw [if_pos hrep] at h
          cases h
          constructor
          · intro out hout
            cases hout
            exact hinv
          · intro st3 hst3
            cases hst3
        · rw [if_neg hrep] at h
          cases hex : execRound dispatch resp
              { st with
                callLog := st.callLog ++ [true],
                prevSigs := some (respSignatures resp),
                repeated := if st.prevSigs = some (respSignatures resp)
                  then st.repeated + 1 else 0,
                contents := st.contents ++ [Content.modelMsg resp] } with
          | error e =>
            simp only [hex] at h
            exact Except.noConfusion h
          | ok pr =>
            obtain ⟨st2x, resultsx⟩ := pr
            simp only [hex] at h
            have hinv2 : InvCache st2x :=
              execRound_inv dispatch resp
                { st with
                  callLog := st.callLog ++ [true],
                  prevSigs := some (respSignatures resp),
                  repeated := if st.prevSigs = some (respSignatures resp)
                    then st.repeated + 1 else 0,
                  contents := st.contents ++ [Content.modelMsg resp] }
                st2x resultsx ⟨hinv.1, hinv.2⟩ hex
            by_cases hlast : isLast = true
            · simp only [hlast, if_true] at h
              cases h
              constructor
              · intro out hout
                cases hout
                exact hinv2
              · intro st3 hst3
                cases hst3
            · simp only [hlast, if_false] at h
              cases h
              constructor
              · intro out hout
                cases hout
              · intro st3 hst3
                cases hst3
                exact hinv2

theorem agentLoop_inv
    (model : Nat → Except String (List Part))
    (dispatch : String → List (String × String) → Except String String)
    (mr : Nat) :
    ∀ (fuel : Nat) (hFn : Bool) (st : LoopSt) (out : LoopOut),
      InvCache st → agentLoop model dispatch mr fuel hFn st = Except.ok out →
      InvCache out.st := by
  intro fuel
  induction fuel with
  | zero =>
    intro hFn st out hinv h
    simp only [agentLoop] at h
    cases h
    exact hinv
  | succ f ih =>
    intro hFn st out hinv h
    simp only [agentLoop] at h
    cases hit : agentIter model dispatch mr (f == 0) hFn st with
    | error e =>
      simp only [hit] at h
      exact Except.noConfusion h
    | ok r =>
      simp only [hit] at h
      cases r with
      | stop out2 =>
        simp only [Except.ok.injEq] at h
        exact h ▸ (agentIter_inv model dispatch mr (f == 0) hFn st _ hinv hit).1 out2 rfl
      | next st3 =>
        have hinv3 : InvCache st3 :=
          (agentIter_inv model dispatch mr (f == 0) hFn st _ hinv hit).2 st3 rfl
        exact ih true st3 out hinv3 h

/-- C8: across one run, the dispatcher is invoked at most once per canonical
tool-call signature (the dispatch log has no duplicates), and in the
two-identical-rounds scenario of the repository cache test the run succeeds
with exactly one dispatcher invocation, the second round being served the
cached textual result. -/
theorem C8_cache_single_dispatch_per_signature :
    (∀ (model : Nat → Except String (List Part))
       (dispatch : String → List (String × String) → Except String String)
       (prompt : String) (mi mr : Nat) (r : RunResult),
       runAgent model dispatch prompt mi mr = Except.ok r →
       r.dispatchLog.Nodup) ∧
    runAgent
      (fun k => if k < 2 then
          Except.ok [Part.call "filter_people" [("surname", "Olson")]]
        else Except.ok [Part.text "Done"])
      (fun _ _ => Except.ok "cached-result")
      "Tell me about the Olson line" 10 5 =
      Except.ok
        { response := [Part.text "Done"],
          contents := [Content.userText "Tell me about the Olson line",
                       Content.modelMsg [Part.call "filter_people" [("surname", "Olson")]],
                       Content.toolResults [("filter_people", "cached-result")],
                       Content.modelMsg [Part.call "filter_people" [("surname", "Olson")]],
                       Content.toolResults [("filter_people", "cached-result")]],
          dispatchLog := [toolCallSignature "filter_people" [("surname", "Olson")]],
          callLog := [true, true, true],
          forcedSynthesis := false } := by
  constructor
  · intro model dispatch prompt mi mr r h
    simp only [runAgent] at h
    cases hl : agentLoop model dispatch (max 1 mr) (max 1 mi) false
        { contents := [Content.userText prompt], prevSigs := none, repeated := 0,
          cache := [], dispatchLog := [], callLog := [] } with
    | error e =>
      simp only [hl] at h
      exact Except.noConfusion h
    | ok out =>
      simp only [hl] at h
      have hinv : InvCache out.st := by
        refine agentLoop_inv model dispatch (max 1 mr) (max 1 mi) false _ out ?_ hl
        exact ⟨List.nodup_nil, by intro s hs; cases hs⟩
      split at h
      · cases hm2 : model out.st.callLog.length with
        | error e =>
          simp only [hm2] at h
          exact Except.noConfusion h
        | ok resp =>
          simp only [hm2, Except.ok.injEq] at h
          rw [← h]
          exact hinv.1
      · simp only [Except.ok.injEq] at h
        rw [← h]
        exact hinv.1
  · decide

/-! ## Loop-breaking and termination (run_agent bounds) -/

theorem respSignatures_call (n : String) (a : List (String × String))
    (rest : List Part) :
    respSignatures (Part.call n a :: rest) =
      toolCallSignature n a :: respSignatures rest := by
  simp [respSignatures]

theorem respSignatures_text (s : String) (rest : List Part) :
    respSignatures (Part.text s :: rest) = respSignatures rest := by
  simp [respSignatures]

theorem cacheLookup_isSome_iff (c : List (String × String)) (s : String) :
    (cacheLookup c s).isSome = true ↔ s ∈ c.map Prod.fst := by
  induction c with
  | nil => simp [cacheLookup]
  | cons kv t ih =>
    simp only [cacheLookup, List.map_cons, List.mem_cons]
    split
    · simp [*]
    · simp only [ih]
      constructor
      · intro hx
        exact Or.inr hx
      · rintro (hx | hx)
        · exact absurd hx (by assumption)
        · exact hx

/-- The signatures a round starting from the given cache keys will newly
dispatch: first occurrences of signatures not yet cached. -/
def sigDedupNew (keys : List String) : List Part → List String
  | [] => []
  | Part.text _ :: rest => sigDedupNew keys rest
  | Part.call n a :: rest =>
    if toolCallSignature n a ∈ keys then sigDedupNew keys rest
    else toolCallSignature n a :: sigDedupNew (keys ++ [toolCallSignature n a]) rest

theorem sigDedupNew_nil_of_subset (parts : List Part) :
    ∀ keys : List String, (∀ s ∈ respSignatures parts, s ∈ keys) →
      sigDedupNew keys parts = [] := by
  induction parts with
  | nil => intro keys _; simp [sigDedupNew]
  | cons p rest ih =>
    intro keys hsub
    cases p with
    | text s =>
      simp only [sigDedupNew]
      exact ih keys (by intro s2 hs2; exact hsub s2 (by rwa [respSignatures_text]))
    | call n a =>
      have hmem : toolCallSignature n a ∈ keys := by
        apply hsub
        rw [respSignatures_call]
        exact List.mem_cons_self _ _
      simp only [sigDedupNew, if_pos hmem]
      refine ih keys ?_
      intro s2 hs2
      apply hsub
      rw [respSignatures_call]
      exact List.mem_cons_of_mem _ hs2

theorem mem_keys_append_sigDedupNew (parts : List Part) :
    ∀ (keys : List String) (s : String), s ∈ respSignatures parts →
      s ∈ keys ++ sigDedupNew keys parts := by
  induction parts with
  | nil => intro keys s hs; simp [respSignatures] at hs
  | cons p rest ih =>
    intro keys s hs
    cases p with
    | text t =>
      rw [respSignatures_text] at hs
      simpa [sigDedupNew] using ih keys s hs
    | call n a =>
      rw [respSignatures_call] at hs
      by_cases hmem : toolCallSignature n a ∈ keys
      · simp only [sigDedupNew, if_pos hmem]
        rcases List.mem_cons.mp hs with hs | hs
        · exact List.mem_append_left _ (hs ▸ hmem)
        · exact ih keys s hs
      · simp only [sigDedupNew, if_neg hmem]
        rcases List.mem_cons.mp hs with hs | hs
        · subst hs
          exact List.mem_append_right _ (List.mem_cons_self _ _)
        · have := ih (keys ++ [toolCallSignature n a]) s hs
          rw [List.append_assoc] at this
          simpa using this

/-- Each signature of the round is dispatched once if not yet cached, and
zero times otherwise. -/
theorem sigDedupNew_count (parts : List Part) :
    ∀ (keys : List String) (s : String),
      (sigDedupNew keys parts).count s =
        if s ∈ respSignatures parts ∧ s ∉ keys then 1 else 0 := by
  induction parts with
  | nil => intro keys s; simp [sigDedupNew, respSignatures]
  | cons p rest ih =>
    intro keys s
    cases p with
    | text t => simp only [sigDedupNew, respSignatures_text]; exact ih keys s
    | call n a =>
      rw [respSignatures_call]
      by_cases hmem : toolCallSignature n a ∈ keys
      · simp only [sigDedupNew, if_pos hmem, ih keys s]
        by_cases hs : s = toolCallSignature n a
        · subst hs
          simp [hmem]
        · simp [List.mem_cons, hs]
      · simp only [sigDedupNew, if_neg hmem, List.count_cons,
          ih (keys ++ [toolCallSignature n a]) s]
        by_cases hs : s = toolCallSignature n a
        · subst hs
          simp [hmem]
        · simp only [List.mem_append, List.mem_singleton, List.mem_cons]
          have hbeq : (s == toolCallSignature n a) = false := by
            simpa using hs
          simp [hbeq, hs]
          tauto

/-- A successful round leaves everything but the cache and the dispatch log
alone, extends the dispatch log by exactly the first occurrences of the
signatures it had not cached, and caches those. -/
theorem execRound_spec
    (dispatch : String → List (String × String) → Except String String) :
    ∀ (parts : List Part) (st st2 : LoopSt) (acc : List (String × String)),
      execRound dispatch parts st = Except.ok (st2, acc) →
      st2.callLog = st.callLog ∧ st2.contents = st.contents ∧
      st2.prevSigs = st.prevSigs ∧ st2.repeated = st.repeated ∧
      st2.dispatchLog = st.dispatchLog ++ sigDedupNew (st.cache.map Prod.fst) parts ∧
      st2.cache.map Prod.fst =
        st.cache.map Prod.fst ++ sigDedupNew (st.cache.map Prod.fst) parts := by
  intro parts
  induction parts with
  | nil =>
    intro st st2 acc h
    simp only [execRound, Except.ok.injEq, Prod.mk.injEq] at h
    obtain ⟨h1, h2⟩ := h
    subst h1
    simp [sigDedupNew]
  | cons p rest ih =>
    intro st st2 acc h
    cases p with
    | text t =>
      simp only [execRound] at h
      simpa [sigDedupNew] using ih st st2 acc h
    | call n a =>
      simp only [execRound] at h
      cases hc : cacheLookup st.cache (toolCallSignature n a) with
      | some r =>
        simp only [hc] at h
        have hmem : toolCallSignature n a ∈ st.cache.map Prod.fst :=
          (cacheLookup_isSome_iff _ _).mp (by rw [hc]; rfl)
        cases hrec : execRound dispatch rest st with
        | error e =>
          simp only [hrec] at h
          exact Except.noConfusion h
        | ok pr =>
          obtain ⟨st2x, accx⟩ := pr
          simp only [hrec, Except.ok.injEq, Prod.mk.injEq] at h
          obtain ⟨h1, h2⟩ := h
          subst h1
          simpa [sigDedupNew, if_pos hmem] using ih st st2x accx hrec
      | none =>
        simp only [hc] at h
        have hnmem : toolCallSignature n a ∉ st.cache.map Prod.fst := by
          intro hx
          have := (cacheLookup_isSome_iff st.cache (toolCallSignature n a)).mpr hx
          rw [hc] at this
          cases this
        cases hd : dispatch n a with
        | error e =>
          simp only [hd] at h
          exact Except.noConfusion h
        | ok r =>
          simp only [hd] at h
          cases hrec : execRound dispatch rest
              { st with cache := st.cache ++ [(toolCallSignature n a, r)],
                        dispatchLog := st.dispatchLog ++ [toolCallSignature n a] } with
          | error e =>
            simp only [hrec] at h
            exact Except.noConfusion h
          | ok pr =>
            obtain ⟨st2x, accx⟩ := pr
            simp only [hrec, Except.ok.injEq, Prod.mk.injEq] at h
            obtain ⟨h1, h2⟩ := h
            subst h1
            obtain ⟨g1, g2, g3, g4, g5, g6⟩ := ih _ st2x accx hrec
            simp only at g1 g2 g3 g4 g5 g6
            refine ⟨g1, g2, g3, g4, ?_, ?_⟩
            · rw [g5]
              simp [sigDedupNew, if_neg hnmem, List.append_assoc]
            · rw [g6]
              simp [sigDedupNew, if_neg hnmem, List.append_assoc]

/-- When the dispatcher never raises, a round always succeeds. -/
theorem execRound_total
    (dispatch : String → List (String × String) → Except String String)
    (hd : ∀ n a, ∃ s, dispatch n a = Except.ok s) :
    ∀ (parts : List Part) (st : LoopSt),
      ∃ pr, execRound dispatch parts st = Except.ok pr := by
  intro parts
  induction parts with
  | nil => intro st; exact ⟨(st, []), rfl⟩
  | cons p rest ih =>
    intro st
    cases p with
    | text t =>
      obtain ⟨pr, hpr⟩ := ih st
      exact ⟨pr, by simpa [execRound] using hpr⟩
    | call n a =>
      cases hc : cacheLookup st.cache (toolCallSignature n a) with
      | some r =>
        obtain ⟨pr, hpr⟩ := ih st
        obtain ⟨st2x, accx⟩ := pr
        exact ⟨(st2x, (n, r) :: accx), by simp [execRound, hc, hpr]⟩
      | none =>
        obtain ⟨r, hr⟩ := hd n a
        obtain ⟨pr, hpr⟩ := ih
          { st with cache := st.cache ++ [(toolCallSignature n a, r)],
                    dispatchLog := st.dispatchLog ++ [toolCallSignature n a] }
        obtain ⟨st2x, accx⟩ := pr
        exact ⟨(st2x, (n, r) :: accx), by simp [execRound, hc, hr, hpr]⟩

/-- A model that keeps returning the same tool round drives the loop into
loop-breaking: starting from a state whose previous signatures already equal
the round and whose cache covers it, after k further rounds (k model calls,
no dispatches) the repeat counter reaches max_repeated_function_calls and
the loop stops with forced synthesis. -/
theorem agentLoop_forced
    (model : Nat → Except String (List Part))
    (dispatch : String → List (String × String) → Except String String)
    (mr : Nat) (parts : List Part)
    (hm : ∀ k, model k = Except.ok parts)
    (hfn : parts.any Part.isCall = true)
    (hd : ∀ n a, ∃ s, dispatch n a = Except.ok s) :
    ∀ (k : Nat), ∀ (f : Nat) (hFn : Bool) (st : LoopSt),
      1 ≤ k → k ≤ f →
      st.prevSigs = some (respSignatures parts) →
      st.repeated + k = mr →
      (∀ s ∈ respSignatures parts, s ∈ st.cache.map Prod.fst) →
      ∃ out, agentLoop model dispatch mr f hFn st = Except.ok out ∧
        out.forced = true ∧
        out.st.callLog = st.callLog ++ List.replicate k true ∧
        out.st.dispatchLog = st.dispatchLog := by
  intro k
  induction k with
  | zero =>
    intro f hFn st h1
    exact absurd h1 (by omega)
  | succ kk ihk =>
    intro f hFn st h1 hkf hprev hrep hcache
    cases f with
    | zero => exact absurd hkf (by omega)
    | succ ff =>
      have hne : parts.isEmpty = false := by
        cases parts with
        | nil => simp at hfn
        | cons a b => rfl
      simp only [agentLoop]
      by_cases hstop : mr ≤ st.repeated + 1
      · have hkk : kk = 0 := by omega
        subst hkk
        have hiter : agentIter model dispatch mr (ff == 0) hFn st =
            Except.ok (.stop
              { st :=
                  { st with
                    callLog := st.callLog ++ [true],
                    prevSigs := some (respSignatures parts),
                    repeated := st.repeated + 1 },
                response := parts, hasFn := true, forced := true,
                lastIter := (ff == 0) }) := by
          simp [agentIter, hm, hne, hfn, hprev, hstop]
        rw [hiter]
        refine ⟨_, rfl, rfl, ?_, rfl⟩
        simp
      · have hkk1 : 1 ≤ kk := by omega
        obtain ⟨pr, hex⟩ := execRound_total dispatch hd parts
          { st with callLog := st.callLog ++ [true],
                    prevSigs := some (respSignatures parts),
                    repeated := st.repeated + 1,
                    contents := st.contents ++ [Content.modelMsg parts] }
        obtain ⟨st2, acc⟩ := pr
        obtain ⟨g1, g2, g3, g4, g5, g6⟩ := execRound_spec dispatch parts _ st2 acc hex
        simp only at g1 g2 g3 g4 g5 g6
        have hdedup : sigDedupNew (st.cache.map Prod.fst) parts = [] :=
          sigDedupNew_nil_of_subset parts _ hcache
        have hlast : (ff == 0) = false := by
          have : ff ≠ 0 := by omega
          simpa using this
        have hiter : agentIter model dispatch mr (ff == 0) hFn st =
            Except.ok (.next
              { st2 with contents := st2.contents ++ [Content.toolResults acc] }) := by
          simp [agentIter, hm, hne, hfn, hprev, hstop, hlast, hex]
        rw [hiter]
        have hcache2 : ∀ s ∈ respSignatures parts,
            s ∈ ({ st2 with contents := st2.contents ++ [Content.toolResults acc] } :
              LoopSt).cache.map Prod.fst := by
          intro s hs
          simp only [g6, hdedup, List.append_nil]
          exact hcache s hs
        obtain ⟨out, hout, hofrc, hocall, hodlog⟩ :=
          ihk ff true { st2 with contents := st2.contents ++ [Content.toolResults acc] }
            hkk1 (by omega) (by simpa using g3) (by show st2.repeated + kk = mr; rw [g4]; omega)
            hcache2
        exact ⟨out, hout, hofrc, by simp [hocall, g1, List.replicate_succ],
               by simp [hodlog, g5, hdedup]⟩

/-- Every iteration of the loop body makes exactly one model call. -/
theorem agentIter_callLog
    (model : Nat → Except String (List Part))
    (dispatch : String → List (String × String) → Except String String)
    (mr : Nat) (isLast hFn : Bool) (st : LoopSt) (r : IterOut)
    (h : agentIter model dispatch mr isLast hFn st = Except.ok r) :
    (∀ out, r = .stop out → out.st.callLog = st.callLog ++ [true]) ∧
    (∀ st3, r = .next st3 → st3.callLog = st.callLog ++ [true]) := by
  simp only [agentIter] at h
  cases hm : model st.callLog.length with
  | error e =>
    simp only [hm] at h
    exact Except.noConfusion h
  | ok resp =>
    simp only [hm] at h
    by_cases hemp : resp.isEmpty = true
    · simp only [hemp, if_true] at h
      cases h
      constructor
      · intro out hout
        cases hout
        rfl
      · intro st3 hst3
        cases hst3
    · simp only [hemp, if_false] at h
      by_cases hfn : (!resp.any Part.isCall) = true
      · simp only [hfn, if_true] at h
        cases h
        constructor
        · intro out hout
          cases hout
          rfl
        · intro st3 hst3
          cases hst3
      · simp only [hfn, if_false] at h
        by_cases hrep : mr ≤ (if st.prevSigs = some (respSignatures resp)
            then st.repeated + 1 else 0)
        · rw [if_pos hrep] at h
          cases h
          constructor
          · intro out hout
            cases hout
            rfl
          · intro st3 hst3
            cases hst3
        · rw [if_neg hrep] at h
          cases hex : execRound dispatch resp
              { st with
                callLog := st.callLog ++ [true],
                prevSigs := some (respSignatures resp),
                repeated := if st.prevSigs = some (respSignatures resp)
                  then st.repeated + 1 else 0,
                contents := st.contents ++ [Content.modelMsg resp] } with
          | error e =>
            simp only [hex] at h
            exact Except.noConfusion h
          | ok pr =>
            obtain ⟨st2x, resultsx⟩ := pr
            simp only [hex] at h
            have hlog : st2x.callLog = st.callLog ++ [true] :=
              (execRound_spec dispatch resp _ st2x resultsx hex).1
            by_cases hlast : isLast = true
            · simp only [hlast, if_true] at h
              cases h
              constructor
              · intro out hout
                cases hout
                exact hlog
              · intro st3 hst3
                cases hst3
            · simp only [hlast, if_false] at h
              cases h
              constructor
              · intro out hout
                cases hout
              · intro st3 hst3
                cases hst3
                exact hlog

/-- The loop makes at most fuel model calls. -/
theorem agentLoop_callLog
    (model : Nat → Except String (List Part))
    (dispatch : String → List (String × String) → Except String String)
    (mr : Nat) :
    ∀ (fuel : Nat) (hFn : Bool) (st : LoopSt) (out : LoopOut),
      agentLoop model dispatch mr fuel hFn st = Except.ok out →
      out.st.callLog.length ≤ st.callLog.length + fuel := by
  intro fuel
  induction fuel with
  | zero =>
    intro hFn st out h
    simp only [agentLoop] at h
    cases h
    simp
  | succ f ih =>
    intro hFn st out h
    simp only [agentLoop] at h
    cases hit : agentIter model dispatch mr (f == 0) hFn st with
    | error e =>
      simp only [hit] at h
      exact Except.noConfusion h
    | ok r =>
      simp only [hit] at h
      cases r with
      | stop out2 =>
        simp only [Except.ok.injEq] at h
        have hlog := (agentIter_callLog model dispatch mr (f == 0) hFn st _ hit).1 out2 rfl
        rw [← h]
        rw [hlog]
        simp only [List.length_append, List.length_singleton]
        omega
      | next st3 =>
        have hlog := (agentIter_callLog model dispatch mr (f == 0) hFn st _ hit).2 st3 rfl
        have := ih true st3 out h
        rw [hlog] at this
        simp at this
        omega

/-- Across a run, the number of model calls is bounded by
max_iterations plus the one synthesis call. -/
theorem runAgent_calls_bound
    (model : Nat → Except String (List Part))
    (dispatch : String → List (String × String) → Except String String)
    (prompt : String) (mi mr : Nat) (r : RunResult)
    (h : runAgent model dispatch prompt mi mr = Except.ok r) :
    r.callLog.length ≤ max 1 mi + 1 := by
  simp only [runAgent] at h
  cases hl : agentLoop model dispatch (max 1 mr) (max 1 mi) false
      { contents := [Content.userText prompt], prevSigs := none, repeated := 0,
        cache := [], dispatchLog := [], callLog := [] } with
  | error e =>
    simp only [hl] at h
    exact Except.noConfusion h
  | ok out =>
    simp only [hl] at h
    have hb := agentLoop_callLog model dispatch (max 1 mr) (max 1 mi) false _ out hl
    simp at hb
    split at h
    · cases hm2 : model out.st.callLog.length with
      | error e =>
        simp only [hm2] at h
        exact Except.noConfusion h
      | ok resp =>
        simp only [hm2, Except.ok.injEq] at h
        rw [← h]
        show (out.st.callLog ++ [false]).length ≤ max 1 mi + 1
        simp only [List.length_append, List.length_singleton]
        omega
    · simp only [Except.ok.injEq] at h
      rw [← h]
      show out.st.callLog.length ≤ max 1 mi + 1
      omega

/-- C3: a model that returns the identical tool round for
max_repeated_function_calls consecutive repeated rounds drives the run into
loop-breaking: every unique signature of the round is dispatched exactly
once (later rounds are served from the cache), exactly one final tool-less
synthesis call is made after mr + 1 tool-enabled calls, and, for every model
and dispatcher, the number of model calls of a completed run is bounded by
max_iterations plus one. -/
theorem C3_repeated_rounds_forced_synthesis
    (model : Nat → Except String (List Part))
    (dispatch : String → List (String × String) → Except String String)
    (prompt : String) (parts : List Part) (mi mr : Nat)
    (hm : ∀ k, model k = Except.ok parts)
    (hfn : parts.any Part.isCall = true)
    (hd : ∀ n a, ∃ s, dispatch n a = Except.ok s)
    (hmr : 1 ≤ mr) (hmi : mr + 1 ≤ mi) :
    (∃ r, runAgent model dispatch prompt mi mr = Except.ok r ∧
      r.forcedSynthesis = true ∧
      r.callLog = List.replicate (mr + 1) true ++ [false] ∧
      (∀ s, r.dispatchLog.count s =
        if s ∈ respSignatures parts then 1 else 0)) ∧
    (∀ (model2 : Nat → Except String (List Part)) dispatch2 prompt2 mi2 mr2 r2,
      runAgent model2 dispatch2 prompt2 mi2 mr2 = Except.ok r2 →
      r2.callLog.length ≤ max 1 mi2 + 1) := by
  refine ⟨?_, fun model2 dispatch2 prompt2 mi2 mr2 r2 h2 =>
    runAgent_calls_bound model2 dispatch2 prompt2 mi2 mr2 r2 h2⟩
  have hmaxi : max 1 mi = mi := by omega
  have hmaxr : max 1 mr = mr := by omega
  obtain ⟨ff, rfl⟩ : ∃ ff, mi = ff + 1 := ⟨mi - 1, by omega⟩
  have hne : parts.isEmpty = false := by
    cases parts with
    | nil => simp at hfn
    | cons a b => rfl
  have h0 : ¬(mr ≤ 0) := by omega
  have hlast : (ff == 0) = false := by
    have : ff ≠ 0 := by omega
    simpa using this
  obtain ⟨pr, hex⟩ := execRound_total dispatch hd parts
    { contents := [Content.userText prompt, Content.modelMsg parts],
      prevSigs := some (respSignatures parts), repeated := 0,
      cache := [], dispatchLog := [], callLog := [true] }
  obtain ⟨st2, acc⟩ := pr
  obtain ⟨g1, g2, g3, g4, g5, g6⟩ := execRound_spec dispatch parts _ st2 acc hex
  simp only at g1 g3 g4 g5 g6
  simp only [List.map_nil, List.nil_append] at g5 g6
  have hiter : agentIter model dispatch mr (ff == 0) false
      { contents := [Content.userText prompt], prevSigs := none, repeated := 0,
        cache := [], dispatchLog := [], callLog := [] } =
      Except.ok (.next
        { st2 with contents := st2.contents ++ [Content.toolResults acc] }) := by
    simp [agentIter, hm, hne, hfn, h0, hlast, hex]
  obtain ⟨out, hout, hofrc, hocall, hodlog⟩ :=
    agentLoop_forced model dispatch mr parts hm hfn hd mr ff true
      { st2 with contents := st2.contents ++ [Content.toolResults acc] }
      hmr (by omega) (by simpa using g3)
      (by show st2.repeated + mr = mr; rw [g4]; omega)
      (by
        intro s hs
        show s ∈ st2.cache.map Prod.fst
        rw [g6]
        simpa using mem_keys_append_sigDedupNew parts [] s hs)
  simp only [runAgent, hmaxi, hmaxr, agentLoop]
  rw [hiter]
  simp only []
  rw [hout]
  simp only [hofrc, Bool.true_or, if_true]
  rw [hm]
  refine ⟨_, rfl, rfl, ?_, ?_⟩
  · show out.st.callLog ++ [false] = List.replicate (mr + 1) true ++ [false]
    rw [hocall]
    simp [g1, List.replicate_succ]
  · intro s
    show (out.st.dispatchLog).count s = _
    rw [hodlog]
    show st2.dispatchLog.count s = _
    rw [g5]
    rw [sigDedupNew_count parts [] s]
    simp

/-- C8 witness: in the concrete two-identical-rounds run, the dispatch log is
the single signature and has no duplicates. -/
theorem C8_cache_single_dispatch_per_signature_witness :
    (runAgent
      (fun k => if k < 2 then
          Except.ok [Part.call "filter_people" [("surname", "Olson")]]
        else Except.ok [Part.text "Done"])
      (fun _ _ => Except.ok "cached-result")
      "Tell me about the Olson line" 10 5).map (fun r => r.dispatchLog) =
      Except.ok [toolCallSignature "filter_people" [("surname", "Olson")]] ∧
    List.Nodup [toolCallSignature "filter_people" [("surname", "Olson")]] := by
  have h := C8_cache_single_dispatch_per_signature
  refine ⟨by rw [h.2]; rfl, ?_⟩
  exact h.1 _ _ _ 10 5 _ h.2

/-- C3 witness: the loop-breaking scenario of the repository test, with
max_repeated_function_calls 2: three tool-enabled model calls, one forced
tool-less synthesis call, and a single dispatch of the repeated signature. -/
theorem C3_repeated_rounds_forced_synthesis_witness :
    ∃ r, runAgent
        (fun _ => Except.ok [Part.call "filter_people" [("surname", "Bradford")]])
        (fun _ _ => Except.ok "tool-result")
        "Who in my tree is related to Bradford?" 10 2 = Except.ok r ∧
      r.forcedSynthesis = true ∧
      r.callLog = [true, true, true, false] ∧
      r.dispatchLog.count
        (toolCallSignature "filter_people" [("surname", "Bradford")]) = 1 := by
  obtain ⟨⟨r, hr, hforced, hcall, hcount⟩, _⟩ :=
    C3_repeated_rounds_forced_synthesis
      (fun _ => Except.ok [Part.call "filter_people" [("surname", "Bradford")]])
      (fun _ _ => Except.ok "tool-result")
      "Who in my tree is related to Bradford?"
      [Part.call "filter_people" [("surname", "Bradford")]] 10 2
      (fun _ => rfl) (by decide) (fun n a => ⟨"tool-result", rfl⟩)
      (by norm_num) (by norm_num)
  refine ⟨r, hr, hforced, by simpa using hcall, ?_⟩
  rw [hcount]
  simp [respSignatures]

/-- C5: evaluation of the code at the scenario of the repository test
test_timeout_after_tool_results_falls_back_to_final_synthesis: the first
model call returns a tool round, the second raises after its retries.  The
source run_agent has no handler around generate_content, so the exception
propagates to the caller instead of triggering a fallback synthesis call,
contradicting the claim and the test, which expects a final answer produced
by one further synthesis call. -/
theorem C5_model_failure_propagates :
    runAgent
      (fun k => if k = 0 then
          Except.ok [Part.call "filter_people" [("surname", "Olson")]]
        else Except.error "read timeout")
      (fun _ _ => Except.ok "tool-result")
      "How many Olson ancestors are there?" 10 2 =
      Except.error "read timeout" := by
  decide

end GrampsWeb
